import Mathlib

/-!
Verification development for the `stock-prediction-ml` repository.

The repository has two Python modules:

* `src/stock_prediction_ml/data_validation/validation.py` — builds a fixed
  Great Expectations suite over an 8-column end-of-day stock table and runs it
  against a batch loaded from a parquet file.
* `src/stock_prediction_ml/marketstack/pull.py` — fetches end-of-day records
  from a remote HTTP API, reshapes them into the 8-column table with pandas,
  and persists the table as a parquet file under `data/raw`.

This file gives a shallow embedding of both modules and proves the spec's
claims about them.

Modelling conventions:

* A pandas cell is `Cell`: `null` stands for any missing value
  (None/NaN/NaT); `timestamp` carries an integer date code (monotone in the
  calendar date, `y*10000 + m*100 + d`); float64 values are carried as
  rationals (no floating arithmetic is performed by the code, only order
  comparisons, which the rational order models faithfully).
* A `DataFrame` is a row-major table: a list of column names plus a list of
  rows. The pandas dtype of a column is recovered from its cells by
  `inferDtype`, mirroring pandas' type inference for the cases the code
  exercises.
* Great Expectations evaluates each expectation of a suite independently,
  catching per-expectation exceptions (e.g. a rule naming a missing column
  yields `success = False` for that rule and evaluation continues); this is
  embedded as the total function `evalRule`.
-/

/-- One pandas cell value. `null` models any missing value. -/
inductive Cell where
  | null : Cell
  | timestamp (t : Int) : Cell
  | str (s : String) : Cell
  | int (n : Int) : Cell
  | float (q : ℚ) : Cell
deriving DecidableEq, Repr

def Cell.isNull : Cell → Bool
  | .null => true
  | _ => false

def Cell.isTimestamp : Cell → Bool
  | .timestamp _ => true
  | _ => false

def Cell.isStr : Cell → Bool
  | .str _ => true
  | _ => false

def Cell.isInt : Cell → Bool
  | .int _ => true
  | _ => false

def Cell.isFloat : Cell → Bool
  | .float _ => true
  | _ => false

/-- Numeric view of a cell, used by elementwise comparisons. -/
def Cell.asQ : Cell → Option ℚ
  | .float q => some q
  | .int n => some (n : ℚ)
  | _ => none

/-- Elementwise strict `>` between two cells, as pandas evaluates it:
comparisons involving a missing value are false. -/
def cellGt (a b : Cell) : Bool :=
  match a.asQ, b.asQ with
  | some x, some y => decide (y < x)
  | _, _ => false

/-- The pandas dtypes relevant to this code base. -/
inductive Dtype where
  | datetime64 : Dtype
  | object : Dtype
  | float64 : Dtype
  | int64 : Dtype
deriving DecidableEq, Repr

/-- Pandas dtype inference for a column's cells: any string makes the column
`object`; timestamps give `datetime64` unless mixed with non-missing
non-timestamps; floats (possibly mixed with ints and missing values) give
`float64`; ints give `int64`, upcast to `float64` when missing values are
present; a column of only missing values is `object`. -/
def inferDtype (vs : List Cell) : Dtype :=
  if vs.isEmpty then .object
  else if vs.any (·.isStr) then .object
  else if vs.any (·.isTimestamp) then
    if vs.all (fun c => c.isTimestamp || c.isNull) then .datetime64 else .object
  else if vs.any (·.isFloat) then .float64
  else if vs.any (·.isInt) then
    if vs.any (·.isNull) then .float64 else .int64
  else .object

/-- How `ExpectColumnValuesToBeOfType`'s `type_` string matches a pandas
dtype (`"Timestamp"` is the Great Expectations name for datetime columns). -/
def typeMatches (ty : String) (d : Dtype) : Bool :=
  match ty with
  | "Timestamp" => d == .datetime64
  | "object" => d == .object
  | "float64" => d == .float64
  | "int64" => d == .int64
  | _ => false

/-- A row-major pandas DataFrame. -/
structure DataFrame where
  cols : List String
  rows : List (List Cell)
deriving DecidableEq, Repr

/-- Index of a column name in a column list (first occurrence). -/
def colIdx (cols : List String) (name : String) : Option Nat :=
  match cols with
  | [] => none
  | c :: cs => if c = name then some 0 else (colIdx cs name).map (· + 1)

/-- The values of a named column, or `none` when the column is absent. -/
def getCol (df : DataFrame) (name : String) : Option (List Cell) :=
  (colIdx df.cols name).map fun i => df.rows.map fun r => r.getD i .null

/-- Aligned (high, low)-style pairs of two columns; empty when either column
is absent. -/
def colPairs (df : DataFrame) (a b : String) : List (Cell × Cell) :=
  ((getCol df a).getD []).zip ((getCol df b).getD [])

/-- The data of each named column, or `none` when one is absent. -/
def columnsData (df : DataFrame) : List String → Option (List (List Cell))
  | [] => some []
  | c :: cs =>
    match getCol df c, columnsData df cs with
    | some v, some vs => some (v :: vs)
    | _, _ => none

/-- Per-row key tuples for a compound-uniqueness rule, or `none` when one of
the named columns is absent. -/
def compoundKeys (df : DataFrame) (cs : List String) : Option (List (List Cell)) :=
  match columnsData df cs with
  | none => none
  | some coldata =>
      some ((List.range df.rows.length).map fun j => coldata.map fun col => col.getD j .null)

/-- No element of the list occurs twice. -/
def allDistinct [DecidableEq α] : List α → Bool
  | [] => true
  | x :: xs => !(decide (x ∈ xs)) && allDistinct xs

/-- The expectation kinds used by `build_expectation_suite`, with the keyword
arguments the source passes to each. -/
inductive Rule where
  | expectTableColumnsToMatchSet (column_set : List String) : Rule
  | expectColumnValuesToNotBeNull (column : String) : Rule
  | expectColumnValuesToBeOfType (column : String) (type_ : String) : Rule
  | expectColumnPairValuesAToBeGreaterThanB (column_A column_B : String) : Rule
  | expectCompoundColumnsToBeUnique (column_list : List String) : Rule
  | expectTableRowCountToBeBetween (min_value : Nat) : Rule
  | expectColumnValuesToBeInSet (column : String) (value_set : List String) : Rule
deriving DecidableEq, Repr

/-- The Great Expectations `expectation_type` snake-case name of a rule. -/
def expectationType : Rule → String
  | .expectTableColumnsToMatchSet _ => "expect_table_columns_to_match_set"
  | .expectColumnValuesToNotBeNull _ => "expect_column_values_to_not_be_null"
  | .expectColumnValuesToBeOfType _ _ => "expect_column_values_to_be_of_type"
  | .expectColumnPairValuesAToBeGreaterThanB _ _ =>
      "expect_column_pair_values_a_to_be_greater_than_b"
  | .expectCompoundColumnsToBeUnique _ => "expect_compound_columns_to_be_unique"
  | .expectTableRowCountToBeBetween _ => "expect_table_row_count_to_be_between"
  | .expectColumnValuesToBeInSet _ _ => "expect_column_values_to_be_in_set"

/-- The `column` keyword argument of a rule, when it has one
(`kwargs.get("column")` in `main`). -/
def columnKwarg : Rule → Option String
  | .expectColumnValuesToNotBeNull c => some c
  | .expectColumnValuesToBeOfType c _ => some c
  | .expectColumnValuesToBeInSet c _ => some c
  | _ => none

/-- All columns a rule reads. -/
def Rule.targets : Rule → List String
  | .expectTableColumnsToMatchSet _ => []
  | .expectColumnValuesToNotBeNull c => [c]
  | .expectColumnValuesToBeOfType c _ => [c]
  | .expectColumnPairValuesAToBeGreaterThanB a b => [a, b]
  | .expectCompoundColumnsToBeUnique cs => cs
  | .expectTableRowCountToBeBetween _ => []
  | .expectColumnValuesToBeInSet c _ => [c]

/-- A Great Expectations suite: a name plus an ordered list of expectations. -/
structure ExpectationSuite where
  name : String
  expectations : List Rule
deriving DecidableEq, Repr

/-- `suite.add_expectation(e)` appends one expectation. -/
def ExpectationSuite.add_expectation (s : ExpectationSuite) (r : Rule) : ExpectationSuite :=
  { s with expectations := s.expectations ++ [r] }

/-- Column set of the stock table, in the order the suite builder lists it. -/
def standardColumns : List String :=
  ["date", "symbol", "open", "high", "low", "close", "volume", "adj_close"]

/-- Allowed ticker symbols, in the order the suite builder lists them. -/
def allowedSymbols : List String :=
  ["AAPL", "MSFT", "AMZN", "GOOGL", "META", "NVDA", "TSLA"]

/-- `build_expectation_suite` from `validation.py`: starts from an empty suite
with the given name and adds the fixed expectations one by one, in source
order. -/
def build_expectation_suite (name : String := "stock_data_expectation_suite") :
    ExpectationSuite :=
  let suite : ExpectationSuite := ⟨name, []⟩
  let suite := suite.add_expectation (.expectTableColumnsToMatchSet standardColumns)
  let suite := suite.add_expectation (.expectColumnValuesToNotBeNull "date")
  let suite := suite.add_expectation (.expectColumnValuesToNotBeNull "symbol")
  let suite := suite.add_expectation (.expectColumnValuesToNotBeNull "open")
  let suite := suite.add_expectation (.expectColumnValuesToNotBeNull "close")
  let suite := suite.add_expectation (.expectColumnValuesToNotBeNull "volume")
  let suite := suite.add_expectation (.expectColumnValuesToBeOfType "date" "Timestamp")
  let suite := suite.add_expectation (.expectColumnValuesToBeOfType "symbol" "object")
  let suite := suite.add_expectation (.expectColumnValuesToBeOfType "open" "float64")
  let suite := suite.add_expectation (.expectColumnValuesToBeOfType "high" "float64")
  let suite := suite.add_expectation (.expectColumnValuesToBeOfType "low" "float64")
  let suite := suite.add_expectation (.expectColumnValuesToBeOfType "close" "float64")
  let suite := suite.add_expectation (.expectColumnValuesToBeOfType "adj_close" "float64")
  let suite := suite.add_expectation (.expectColumnValuesToBeOfType "volume" "float64")
  let suite := suite.add_expectation
    (.expectColumnPairValuesAToBeGreaterThanB "high" "low")
  let suite := suite.add_expectation (.expectCompoundColumnsToBeUnique ["date", "symbol"])
  let suite := suite.add_expectation (.expectTableRowCountToBeBetween 1)
  let suite := suite.add_expectation (.expectColumnValuesToBeInSet "symbol" allowedSymbols)
  suite

/-- Evaluation of one expectation against a batch, as the Great Expectations
pandas backend does. A rule naming an absent column cannot resolve its metric;
the raised exception is caught per rule and reported as `success = False`. -/
def evalRule (df : DataFrame) : Rule → Bool
  | .expectTableColumnsToMatchSet cs =>
      decide (∀ x ∈ df.cols, x ∈ cs) && decide (∀ x ∈ cs, x ∈ df.cols)
  | .expectColumnValuesToNotBeNull c =>
      match getCol df c with
      | none => false
      | some vs => vs.all fun v => !v.isNull
  | .expectColumnValuesToBeOfType c ty =>
      match getCol df c with
      | none => false
      | some vs => typeMatches ty (inferDtype vs)
  | .expectColumnPairValuesAToBeGreaterThanB a b =>
      match getCol df a, getCol df b with
      | some va, some vb =>
          (va.zip vb).all fun p => (p.1.isNull && p.2.isNull) || cellGt p.1 p.2
      | _, _ => false
  | .expectCompoundColumnsToBeUnique cs =>
      match compoundKeys df cs with
      | none => false
      | some ks => allDistinct ks
  | .expectTableRowCountToBeBetween m => decide (m ≤ df.rows.length)
  | .expectColumnValuesToBeInSet c set =>
      match getCol df c with
      | none => false
      | some vs =>
          vs.all fun v =>
            v.isNull ||
              match v with
              | .str s => set.contains s
              | _ => false

/-- One entry of a validation result: the expectation's configuration plus
its boolean success flag. -/
structure ExpectationResult where
  expectation_config : Rule
  success : Bool
deriving DecidableEq, Repr

/-- `validate_batch` from `validation.py`: evaluates every expectation of the
suite against the batch independently, producing one result per expectation
(in suite order). -/
def validate_batch (df : DataFrame) (suite : ExpectationSuite) : List ExpectationResult :=
  suite.expectations.map fun r => ⟨r, evalRule df r⟩

/-- `successful_count` from `main`: number of results whose `success` is true. -/
def successful_count (results : List ExpectationResult) : Nat :=
  (results.filter (·.success)).length

/-- `total_count` from `main`: number of results. -/
def total_count (results : List ExpectationResult) : Nat :=
  results.length

/-- The enumeration `main` logs for failing expectations: for each result with
`success = False`, its expectation type, its `column` kwarg (or "N/A"), and
its configuration as the detail payload. -/
def failedExpectations (results : List ExpectationResult) :
    List (String × String × Rule) :=
  (results.filter fun r => !r.success).map fun r =>
    (expectationType r.expectation_config,
      (columnKwarg r.expectation_config).getD "N/A",
      r.expectation_config)

/-- The full rule list the suite builder produces, written out. -/
def standardRuleList : List Rule :=
  [.expectTableColumnsToMatchSet standardColumns,
   .expectColumnValuesToNotBeNull "date",
   .expectColumnValuesToNotBeNull "symbol",
   .expectColumnValuesToNotBeNull "open",
   .expectColumnValuesToNotBeNull "close",
   .expectColumnValuesToNotBeNull "volume",
   .expectColumnValuesToBeOfType "date" "Timestamp",
   .expectColumnValuesToBeOfType "symbol" "object",
   .expectColumnValuesToBeOfType "open" "float64",
   .expectColumnValuesToBeOfType "high" "float64",
   .expectColumnValuesToBeOfType "low" "float64",
   .expectColumnValuesToBeOfType "close" "float64",
   .expectColumnValuesToBeOfType "adj_close" "float64",
   .expectColumnValuesToBeOfType "volume" "float64",
   .expectColumnPairValuesAToBeGreaterThanB "high" "low",
   .expectCompoundColumnsToBeUnique ["date", "symbol"],
   .expectTableRowCountToBeBetween 1,
   .expectColumnValuesToBeInSet "symbol" allowedSymbols]

/-- C1: for every name, `build_expectation_suite(name)` is a pure construction
returning the suite with that name whose rules are exactly the 18 listed ones
(one column-set match, five not-null rules, eight type rules, the strict
high-greater-than-low pair rule, compound uniqueness on (date, symbol), a
row-count floor of 1, and the allowed-symbols rule) and no others. -/
theorem build_expectation_suite_exact (name : String) :
    build_expectation_suite name = ⟨name, standardRuleList⟩ := by
  simp only [build_expectation_suite, ExpectationSuite.add_expectation, standardRuleList,
    List.nil_append, List.cons_append, standardColumns, allowedSymbols]

/-! ### Basic column-lookup lemmas -/

theorem colIdx_isSome_iff {cols : List String} {name : String} :
    (colIdx cols name).isSome ↔ name ∈ cols := by
  induction cols with
  | nil => simp [colIdx]
  | cons c cs ih =>
    by_cases h : c = name
    · subst h; simp [colIdx]
    · rw [colIdx, if_neg h]
      constructor
      · intro hs
        have hcs : (colIdx cs name).isSome := by
          cases hcs : colIdx cs name
          · rw [hcs] at hs; simp at hs
          · simp
        exact List.mem_cons_of_mem _ (ih.mp hcs)
      · intro hm
        rcases List.mem_cons.mp hm with rfl | hm'
        · exact absurd rfl h
        · have hcs := ih.mpr hm'
          cases hcs' : colIdx cs name
          · rw [hcs'] at hcs; simp at hcs
          · simp [hcs']

theorem getCol_eq_none_iff {df : DataFrame} {name : String} :
    getCol df name = none ↔ name ∉ df.cols := by
  rw [← colIdx_isSome_iff]
  unfold getCol
  cases colIdx df.cols name <;> simp

theorem getCol_eq_some_of_mem {df : DataFrame} {name : String} (h : name ∈ df.cols) :
    ∃ vs, getCol df name = some vs ∧ vs.length = df.rows.length := by
  obtain ⟨i, hi⟩ := Option.isSome_iff_exists.mp (colIdx_isSome_iff.mpr h)
  exact ⟨df.rows.map fun r => r.getD i .null, by simp [getCol, hi], by simp⟩

/-! ### Table-validity predicates

These predicates state, directly on the table, the conditions the spec's
"valid table" describes. Each is phrased through `getCol`, so a predicate on
an absent column holds vacuously. -/

/-- Every cell of the named column satisfies `p` (vacuous for an absent
column). -/
def colAll (df : DataFrame) (name : String) (p : Cell → Bool) : Prop :=
  ∀ v ∈ (getCol df name).getD [], p v = true

/-- If the named column exists, some cell of it satisfies `p`. -/
def colAnyIf (df : DataFrame) (name : String) (p : Cell → Bool) : Prop :=
  name ∈ df.cols → ∃ v ∈ (getCol df name).getD [], p v = true

/-- The table's columns are exactly the eight standard ones (as a set, with
no duplicate column names). -/
def schemaOK (df : DataFrame) : Prop :=
  (∀ x ∈ df.cols, x ∈ standardColumns) ∧ (∀ x ∈ standardColumns, x ∈ df.cols) ∧
    df.cols.Nodup

/-- Every column holds the semantic type the suite designates: `date` holds
timestamps, `symbol` strings, and the six numeric columns float64 values
(`adj_close` may additionally contain missing values but not only those). -/
def typesOK (df : DataFrame) : Prop :=
  colAll df "date" Cell.isTimestamp ∧
  colAll df "symbol" Cell.isStr ∧
  colAll df "open" Cell.isFloat ∧
  colAll df "high" Cell.isFloat ∧
  colAll df "low" Cell.isFloat ∧
  colAll df "close" Cell.isFloat ∧
  colAll df "adj_close" (fun c => c.isFloat || c.isNull) ∧
  colAnyIf df "adj_close" Cell.isFloat ∧
  colAll df "volume" Cell.isFloat

/-- `high > low` holds on every row. -/
def highLowOK (df : DataFrame) : Prop :=
  ∀ p ∈ colPairs df "high" "low", cellGt p.1 p.2 = true

/-- No duplicate `(date, symbol)` combination. -/
def uniqueOK (df : DataFrame) : Prop :=
  allDistinct ((compoundKeys df ["date", "symbol"]).getD []) = true

/-- Every symbol is a string drawn from the allowed seven-ticker set. -/
def symbolsOK (df : DataFrame) : Prop :=
  colAll df "symbol" fun v =>
    match v with
    | .str s => allowedSymbols.contains s
    | _ => false

/-- The table has at least one row. -/
def rowCountOK (df : DataFrame) : Prop :=
  df.rows ≠ []

theorem colAll_imp {df : DataFrame} {name : String} {p q : Cell → Bool}
    (hpq : ∀ v, p v = true → q v = true) (h : colAll df name p) : colAll df name q :=
  fun v hv => hpq v (h v hv)

/-! ### Evaluation lemmas, one per rule kind -/

theorem eval_columnsMatchSet_true {df : DataFrame} (h : schemaOK df) :
    evalRule df (.expectTableColumnsToMatchSet standardColumns) = true := by
  simp only [evalRule, Bool.and_eq_true, decide_eq_true_eq]
  exact ⟨h.1, h.2.1⟩

theorem eval_notNull_true {df : DataFrame} {c : String} (hmem : c ∈ df.cols)
    (h : colAll df c fun v => !v.isNull) :
    evalRule df (.expectColumnValuesToNotBeNull c) = true := by
  obtain ⟨vs, hvs, -⟩ := getCol_eq_some_of_mem hmem
  simp only [evalRule, hvs, List.all_eq_true]
  intro v hv
  exact h v (by simp [hvs, hv])

theorem eval_ofType_float64_true {df : DataFrame} {c : String} (hmem : c ∈ df.cols)
    (hall : colAll df c fun v => v.isFloat || v.isNull)
    (hany : colAnyIf df c Cell.isFloat) :
    evalRule df (.expectColumnValuesToBeOfType c "float64") = true := by
  obtain ⟨vs, hvs, hlen⟩ := getCol_eq_some_of_mem hmem
  have hall' : ∀ v ∈ vs, (v.isFloat || v.isNull) = true := fun v hv => hall v (by simp [hvs, hv])
  obtain ⟨w, hw, hwf⟩ := hany hmem
  rw [hvs] at hw
  simp only [Option.getD_some] at hw
  have hvne : vs.isEmpty = false := by
    cases vs with
    | nil => simp at hw
    | cons a l => rfl
  have hnostr : vs.any (·.isStr) = false := by
    simp only [List.any_eq_false]
    intro v hv
    have := hall' v hv
    cases v <;> simp_all [Cell.isFloat, Cell.isNull, Cell.isStr]
  have hnots : vs.any (·.isTimestamp) = false := by
    simp only [List.any_eq_false]
    intro v hv
    have := hall' v hv
    cases v <;> simp_all [Cell.isFloat, Cell.isNull, Cell.isTimestamp]
  have hanyf : vs.any (·.isFloat) = true := List.any_eq_true.mpr ⟨w, hw, hwf⟩
  simp [evalRule, hvs, inferDtype, hvne, hnostr, hnots, hanyf, typeMatches]

theorem eval_ofType_Timestamp_true {df : DataFrame} {c : String} (hmem : c ∈ df.cols)
    (hne : df.rows ≠ []) (hall : colAll df c Cell.isTimestamp) :
    evalRule df (.expectColumnValuesToBeOfType c "Timestamp") = true := by
  obtain ⟨vs, hvs, hlen⟩ := getCol_eq_some_of_mem hmem
  have hall' : ∀ v ∈ vs, v.isTimestamp = true := fun v hv => hall v (by simp [hvs, hv])
  have hvne : vs ≠ [] := by
    intro hnil
    rw [hnil] at hlen
    exact hne (List.length_eq_zero.mp hlen.symm)
  obtain ⟨w, hw⟩ := List.exists_mem_of_ne_nil vs hvne
  have hvne' : vs.isEmpty = false := by
    cases vs with
    | nil => exact absurd rfl hvne
    | cons a l => rfl
  have hnostr : vs.any (·.isStr) = false := by
    simp only [List.any_eq_false]
    intro v hv
    have := hall' v hv
    cases v <;> simp_all [Cell.isTimestamp, Cell.isStr]
  have hanyts : vs.any (·.isTimestamp) = true := List.any_eq_true.mpr ⟨w, hw, hall' w hw⟩
  have hallts : vs.all (fun c => c.isTimestamp || c.isNull) = true := by
    simp only [List.all_eq_true]
    intro v hv
    simp [hall' v hv]
  simp [evalRule, hvs, inferDtype, hvne', hnostr, hanyts, hallts, typeMatches]

theorem eval_ofType_object_true {df : DataFrame} {c : String} (hmem : c ∈ df.cols)
    (hne : df.rows ≠ []) (hall : colAll df c Cell.isStr) :
    evalRule df (.expectColumnValuesToBeOfType c "object") = true := by
  obtain ⟨vs, hvs, hlen⟩ := getCol_eq_some_of_mem hmem
  have hall' : ∀ v ∈ vs, v.isStr = true := fun v hv => hall v (by simp [hvs, hv])
  have hvne : vs ≠ [] := by
    intro hnil
    rw [hnil] at hlen
    exact hne (List.length_eq_zero.mp hlen.symm)
  obtain ⟨w, hw⟩ := List.exists_mem_of_ne_nil vs hvne
  have hvne' : vs.isEmpty = false := by
    cases vs with
    | nil => exact absurd rfl hvne
    | cons a l => rfl
  have hanystr : vs.any (·.isStr) = true := List.any_eq_true.mpr ⟨w, hw, hall' w hw⟩
  simp [evalRule, hvs, inferDtype, hvne', hanystr, typeMatches]

theorem eval_pair_true {df : DataFrame} {a b : String} (ha : a ∈ df.cols) (hb : b ∈ df.cols)
    (h : ∀ p ∈ colPairs df a b, cellGt p.1 p.2 = true) :
    evalRule df (.expectColumnPairValuesAToBeGreaterThanB a b) = true := by
  obtain ⟨va, hva, -⟩ := getCol_eq_some_of_mem ha
  obtain ⟨vb, hvb, -⟩ := getCol_eq_some_of_mem hb
  simp only [evalRule, hva, hvb, List.all_eq_true]
  intro p hp
  have := h p (by simp [colPairs, hva, hvb, hp])
  simp [this]

theorem eval_unique_true {df : DataFrame} (hd : "date" ∈ df.cols) (hs : "symbol" ∈ df.cols)
    (h : uniqueOK df) :
    evalRule df (.expectCompoundColumnsToBeUnique ["date", "symbol"]) = true := by
  rw [uniqueOK] at h
  simp only [evalRule]
  cases hck : compoundKeys df ["date", "symbol"] with
  | none =>
    exfalso
    obtain ⟨vd, hvd, -⟩ := getCol_eq_some_of_mem hd
    obtain ⟨vsy, hvsy, -⟩ := getCol_eq_some_of_mem hs
    simp only [compoundKeys, columnsData, hvd, hvsy] at hck
    exact Option.noConfusion hck
  | some ks =>
    rw [hck] at h
    simpa using h

theorem eval_rowCount_true {df : DataFrame} (h : df.rows ≠ []) :
    evalRule df (.expectTableRowCountToBeBetween 1) = true := by
  simp only [evalRule, decide_eq_true_eq]
  exact Nat.one_le_iff_ne_zero.mpr (by simpa using h)

theorem eval_inSet_true {df : DataFrame} (hmem : "symbol" ∈ df.cols) (h : symbolsOK df) :
    evalRule df (.expectColumnValuesToBeInSet "symbol" allowedSymbols) = true := by
  obtain ⟨vs, hvs, -⟩ := getCol_eq_some_of_mem hmem
  simp only [evalRule, hvs, List.all_eq_true]
  intro v hv
  have := h v (by simp [hvs, hv])
  cases v <;> simp_all [Cell.isNull]

/-- Shared form of the suite builder's output, usable by the other proofs. -/
theorem build_expectation_suite_eq (name : String) :
    build_expectation_suite name = ⟨name, standardRuleList⟩ := by
  simp only [build_expectation_suite, ExpectationSuite.add_expectation, standardRuleList,
    List.nil_append, List.cons_append, standardColumns, allowedSymbols]

theorem colAnyIf_of_colAll_ne {df : DataFrame} {c : String} {p : Cell → Bool}
    (hrow : df.rows ≠ []) (h : colAll df c p) : colAnyIf df c p := by
  intro hm
  obtain ⟨vs, hvs, hlen⟩ := getCol_eq_some_of_mem hm
  have hvne : vs ≠ [] := by
    intro hnil
    rw [hnil] at hlen
    exact hrow (List.length_eq_zero.mp hlen.symm)
  obtain ⟨w, hw⟩ := List.exists_mem_of_ne_nil vs hvne
  exact ⟨w, by simp [hvs, hw], h w (by simp [hvs, hw])⟩

/-- Every rule of the fixed suite other than the high/low pair rule evaluates
to success on a table satisfying the remaining validity predicates. -/
theorem evalRule_true_of_valid_no_pair {df : DataFrame}
    (hschema : schemaOK df) (htypes : typesOK df)
    (huniq : uniqueOK df) (hsym : symbolsOK df) (hrow : rowCountOK df) :
    ∀ r ∈ standardRuleList,
      r ≠ .expectColumnPairValuesAToBeGreaterThanB "high" "low" → evalRule df r = true := by
  obtain ⟨hdate, hsy, hopen, hhigh, hlow, hclose, hadjAll, hadjAny, hvol⟩ := htypes
  have hmem : ∀ x ∈ standardColumns, x ∈ df.cols := hschema.2.1
  have hdmem : "date" ∈ df.cols := hmem _ (by simp [standardColumns])
  have hsmem : "symbol" ∈ df.cols := hmem _ (by simp [standardColumns])
  have homem : "open" ∈ df.cols := hmem _ (by simp [standardColumns])
  have hhmem : "high" ∈ df.cols := hmem _ (by simp [standardColumns])
  have hlmem : "low" ∈ df.cols := hmem _ (by simp [standardColumns])
  have hcmem : "close" ∈ df.cols := hmem _ (by simp [standardColumns])
  have hvmem : "volume" ∈ df.cols := hmem _ (by simp [standardColumns])
  have hamem : "adj_close" ∈ df.cols := hmem _ (by simp [standardColumns])
  intro r hr hne
  have notNull_of_ts : ∀ v : Cell, v.isTimestamp = true → (!v.isNull) = true := by
    intro v hv; cases v <;> simp_all [Cell.isTimestamp, Cell.isNull]
  have notNull_of_str : ∀ v : Cell, v.isStr = true → (!v.isNull) = true := by
    intro v hv; cases v <;> simp_all [Cell.isStr, Cell.isNull]
  have notNull_of_float : ∀ v : Cell, v.isFloat = true → (!v.isNull) = true := by
    intro v hv; cases v <;> simp_all [Cell.isFloat, Cell.isNull]
  have floatOrNull_of_float : ∀ v : Cell, v.isFloat = true → (v.isFloat || v.isNull) = true := by
    intro v hv; simp [hv]
  simp only [standardRuleList, List.mem_cons, List.not_mem_nil, or_false] at hr
  rcases hr with rfl | rfl | rfl | rfl | rfl | rfl | rfl | rfl | rfl | rfl | rfl | rfl |
    rfl | rfl | rfl | rfl | rfl | rfl
  · exact eval_columnsMatchSet_true hschema
  · exact eval_notNull_true hdmem (colAll_imp notNull_of_ts hdate)
  · exact eval_notNull_true hsmem (colAll_imp notNull_of_str hsy)
  · exact eval_notNull_true homem (colAll_imp notNull_of_float hopen)
  · exact eval_notNull_true hcmem (colAll_imp notNull_of_float hclose)
  · exact eval_notNull_true hvmem (colAll_imp notNull_of_float hvol)
  · exact eval_ofType_Timestamp_true hdmem hrow hdate
  · exact eval_ofType_object_true hsmem hrow hsy
  · exact eval_ofType_float64_true homem (colAll_imp floatOrNull_of_float hopen)
      (colAnyIf_of_colAll_ne hrow hopen)
  · exact eval_ofType_float64_true hhmem (colAll_imp floatOrNull_of_float hhigh)
      (colAnyIf_of_colAll_ne hrow hhigh)
  · exact eval_ofType_float64_true hlmem (colAll_imp floatOrNull_of_float hlow)
      (colAnyIf_of_colAll_ne hrow hlow)
  · exact eval_ofType_float64_true hcmem (colAll_imp floatOrNull_of_float hclose)
      (colAnyIf_of_colAll_ne hrow hclose)
  · exact eval_ofType_float64_true hamem hadjAll hadjAny
  · exact eval_ofType_float64_true hvmem (colAll_imp floatOrNull_of_float hvol)
      (colAnyIf_of_colAll_ne hrow hvol)
  · exact absurd rfl hne
  · exact eval_unique_true hdmem hsmem huniq
  · exact eval_rowCount_true hrow
  · exact eval_inSet_true hsmem hsym

/-- Every rule of the fixed suite evaluates to success on a table satisfying
all validity predicates. -/
theorem evalRule_true_of_valid {df : DataFrame}
    (hschema : schemaOK df) (htypes : typesOK df) (hhl : highLowOK df)
    (huniq : uniqueOK df) (hsym : symbolsOK df) (hrow : rowCountOK df) :
    ∀ r ∈ standardRuleList, evalRule df r = true := by
  intro r hr
  by_cases hp : r = .expectColumnPairValuesAToBeGreaterThanB "high" "low"
  · subst hp
    exact eval_pair_true (hschema.2.1 _ (by simp [standardColumns]))
      (hschema.2.1 _ (by simp [standardColumns])) hhl
  · exact evalRule_true_of_valid_no_pair hschema htypes huniq hsym hrow r hr hp

/-- C2: a table with exactly the 8-column schema, the designated column
types, no missing values in the required columns, `high > low` on every row,
no duplicate `(date, symbol)` pair, at least one row, and symbols drawn from
the allowed seven-ticker set makes every rule of the built suite succeed:
`passed == total`. -/
theorem valid_table_passes (df : DataFrame) (name : String)
    (hschema : schemaOK df) (htypes : typesOK df) (hhl : highLowOK df)
    (huniq : uniqueOK df) (hsym : symbolsOK df) (hrow : rowCountOK df) :
    successful_count (validate_batch df (build_expectation_suite name)) =
      total_count (validate_batch df (build_expectation_suite name)) := by
  have hall : ∀ rr ∈ validate_batch df (build_expectation_suite name), rr.success = true := by
    intro rr hrr
    rw [build_expectation_suite_eq] at hrr
    simp only [validate_batch, List.mem_map] at hrr
    obtain ⟨r, hr, rfl⟩ := hrr
    exact evalRule_true_of_valid hschema htypes hhl huniq hsym hrow r hr
  unfold successful_count total_count
  rw [List.filter_eq_self.mpr hall]

instance (df : DataFrame) (name : String) (p : Cell → Bool) : Decidable (colAll df name p) := by
  unfold colAll; infer_instance

instance (df : DataFrame) (name : String) (p : Cell → Bool) : Decidable (colAnyIf df name p) := by
  unfold colAnyIf; infer_instance

instance (df : DataFrame) : Decidable (schemaOK df) := by
  unfold schemaOK; infer_instance

instance (df : DataFrame) : Decidable (typesOK df) := by
  unfold typesOK; infer_instance

instance (df : DataFrame) : Decidable (highLowOK df) := by
  unfold highLowOK; infer_instance

instance (df : DataFrame) : Decidable (uniqueOK df) := by
  unfold uniqueOK; infer_instance

instance (df : DataFrame) : Decidable (symbolsOK df) := by
  unfold symbolsOK; infer_instance

instance (df : DataFrame) : Decidable (rowCountOK df) := by
  unfold rowCountOK; infer_instance

/-- A one-row valid table used as concrete input by the witnesses. -/
def sampleRow : List Cell :=
  [.timestamp 20250103, .str "AAPL", .float 130, .float 131, .float 129,
   .float 130, .float 1000000, .float 130]

/-- A concrete valid one-row DataFrame. -/
def sampleDF : DataFrame := ⟨standardColumns, [sampleRow]⟩

theorem valid_table_passes_witness :
    successful_count (validate_batch sampleDF (build_expectation_suite "stock_data_expectation_suite")) =
      total_count (validate_batch sampleDF (build_expectation_suite "stock_data_expectation_suite")) :=
  valid_table_passes sampleDF "stock_data_expectation_suite"
    (by decide) (by decide) (by decide) (by decide) (by decide) (by decide)

/-- C3: `validate_batch` evaluates every rule of the suite independently of
the other rules' outcomes (the result at index `i` is determined by the table
and the `i`-th rule alone, with no short-circuiting and no fatal error), the
result has exactly one boolean-tagged outcome per rule, and `main`'s summary
counts `passed` successes out of `total = passed + number of failures`, with
each failing rule enumerated by kind, target column (or "N/A"), and its
configuration detail. -/
theorem validate_batch_reports (df : DataFrame) (suite : ExpectationSuite) :
    (validate_batch df suite).length = suite.expectations.length ∧
    (∀ (i : Nat) (r : Rule), suite.expectations[i]? = some r →
        (validate_batch df suite)[i]? = some (ExpectationResult.mk r (evalRule df r))) ∧
    successful_count (validate_batch df suite) +
        (failedExpectations (validate_batch df suite)).length =
      total_count (validate_batch df suite) ∧
    (∀ (rr : ExpectationResult), rr ∈ validate_batch df suite → rr.success = false →
        (expectationType rr.expectation_config,
          (columnKwarg rr.expectation_config).getD "N/A",
          rr.expectation_config) ∈ failedExpectations (validate_batch df suite)) := by
  refine ⟨by simp [validate_batch], ?_, ?_, ?_⟩
  · intro i r hir
    simp [validate_batch, List.getElem?_map, hir]
  · unfold successful_count failedExpectations total_count
    rw [List.length_map]
    exact (@List.length_eq_length_filter_add ExpectationResult (validate_batch df suite)
      (fun rr => rr.success)).symm
  · intro rr hrr hf
    unfold failedExpectations
    exact List.mem_map_of_mem _ (List.mem_filter.mpr ⟨hrr, by simp [hf]⟩)

theorem validate_batch_reports_witness :
    (validate_batch sampleDF (build_expectation_suite "w"))[16]? =
      some ⟨.expectTableRowCountToBeBetween 1, true⟩ := by
  have h := (validate_batch_reports sampleDF (build_expectation_suite "w")).2.1 16
    (.expectTableRowCountToBeBetween 1) (by rw [build_expectation_suite_eq]; rfl)
  rw [h]
  rfl

/-- The failing-rule enumeration of a run is the suite's rule list filtered to
the rules that evaluate to failure. -/
theorem failedExpectations_validate (df : DataFrame) (suite : ExpectationSuite) :
    failedExpectations (validate_batch df suite) =
      (suite.expectations.filter fun r => !evalRule df r).map fun r =>
        (expectationType r, (columnKwarg r).getD "N/A", r) := by
  unfold failedExpectations validate_batch
  rw [List.filter_map, List.map_map]
  rfl

theorem eval_pair_false_of_violation {df : DataFrame} {a b : String}
    (hbad : ∃ p ∈ colPairs df a b, ((p.1.isNull && p.2.isNull) || cellGt p.1 p.2) = false) :
    evalRule df (.expectColumnPairValuesAToBeGreaterThanB a b) = false := by
  obtain ⟨p, hp, hpf⟩ := hbad
  simp only [evalRule]
  cases hga : getCol df a with
  | none => rfl
  | some va =>
    cases hgb : getCol df b with
    | none => rfl
    | some vb =>
      rw [colPairs, hga, hgb] at hp
      simp only [Option.getD_some] at hp
      apply Bool.eq_false_iff.mpr
      intro hall
      rw [List.all_eq_true] at hall
      exact absurd (hall p hp) (by simp [hpf])

/-- C4: on a table satisfying every validity condition except possibly the
high/low relation, a row whose `high` and `low` are floats with
`high <= low` (including `high == low`, since the rule is strict) makes
exactly the pairwise-relation rule fail and no other rule, independent of the
other rows' correctness. -/
theorem pair_violation_fails_exactly (df : DataFrame) (name : String)
    (hschema : schemaOK df) (htypes : typesOK df)
    (huniq : uniqueOK df) (hsym : symbolsOK df) (hrow : rowCountOK df)
    (hbad : ∃ p ∈ colPairs df "high" "low",
      ∃ hq lq : ℚ, p.1 = .float hq ∧ p.2 = .float lq ∧ hq ≤ lq) :
    failedExpectations (validate_batch df (build_expectation_suite name)) =
      [("expect_column_pair_values_a_to_be_greater_than_b", "N/A",
        .expectColumnPairValuesAToBeGreaterThanB "high" "low")] := by
  have hT := evalRule_true_of_valid_no_pair hschema htypes huniq hsym hrow
  have hfalse : evalRule df (.expectColumnPairValuesAToBeGreaterThanB "high" "low") = false := by
    apply eval_pair_false_of_violation
    obtain ⟨p, hp, hq, lq, hp1, hp2, hle⟩ := hbad
    refine ⟨p, hp, ?_⟩
    rw [hp1, hp2]
    simp [Cell.isNull, cellGt, Cell.asQ, not_lt.mpr hle]
  have h1 := hT _ (show Rule.expectTableColumnsToMatchSet standardColumns ∈ standardRuleList
    by simp [standardRuleList]) (by simp)
  have h2 := hT _ (show Rule.expectColumnValuesToNotBeNull "date" ∈ standardRuleList
    by simp [standardRuleList]) (by simp)
  have h3 := hT _ (show Rule.expectColumnValuesToNotBeNull "symbol" ∈ standardRuleList
    by simp [standardRuleList]) (by simp)
  have h4 := hT _ (show Rule.expectColumnValuesToNotBeNull "open" ∈ standardRuleList
    by simp [standardRuleList]) (by simp)
  have h5 := hT _ (show Rule.expectColumnValuesToNotBeNull "close" ∈ standardRuleList
    by simp [standardRuleList]) (by simp)
  have h6 := hT _ (show Rule.expectColumnValuesToNotBeNull "volume" ∈ standardRuleList
    by simp [standardRuleList]) (by simp)
  have h7 := hT _ (show Rule.expectColumnValuesToBeOfType "date" "Timestamp" ∈ standardRuleList
    by simp [standardRuleList]) (by simp)
  have h8 := hT _ (show Rule.expectColumnValuesToBeOfType "symbol" "object" ∈ standardRuleList
    by simp [standardRuleList]) (by simp)
  have h9 := hT _ (show Rule.expectColumnValuesToBeOfType "open" "float64" ∈ standardRuleList
    by simp [standardRuleList]) (by simp)
  have h10 := hT _ (show Rule.expectColumnValuesToBeOfType "high" "float64" ∈ standardRuleList
    by simp [standardRuleList]) (by simp)
  have h11 := hT _ (show Rule.expectColumnValuesToBeOfType "low" "float64" ∈ standardRuleList
    by simp [standardRuleList]) (by simp)
  have h12 := hT _ (show Rule.expectColumnValuesToBeOfType "close" "float64" ∈ standardRuleList
    by simp [standardRuleList]) (by simp)
  have h13 := hT _ (show Rule.expectColumnValuesToBeOfType "adj_close" "float64" ∈ standardRuleList
    by simp [standardRuleList]) (by simp)
  have h14 := hT _ (show Rule.expectColumnValuesToBeOfType "volume" "float64" ∈ standardRuleList
    by simp [standardRuleList]) (by simp)
  have h16 := hT _ (show Rule.expectCompoundColumnsToBeUnique ["date", "symbol"] ∈ standardRuleList
    by simp [standardRuleList]) (by simp)
  have h17 := hT _ (show Rule.expectTableRowCountToBeBetween 1 ∈ standardRuleList
    by simp [standardRuleList]) (by simp)
  have h18 := hT _ (show Rule.expectColumnValuesToBeInSet "symbol" allowedSymbols ∈ standardRuleList
    by simp [standardRuleList]) (by simp)
  rw [build_expectation_suite_eq, failedExpectations_validate]
  show (standardRuleList.filter fun r => !evalRule df r).map _ = _
  have hfilter : (standardRuleList.filter fun r => !evalRule df r) =
      [.expectColumnPairValuesAToBeGreaterThanB "high" "low"] := by
    simp [standardRuleList, h1, h2, h3, h4, h5, h6, h7, h8, h9, h10, h11, h12, h13, h14,
      hfalse, h16, h17, h18]
  rw [hfilter]
  rfl

/-- A one-row table that is valid except `high == low` on its only row. -/
def badPairRow : List Cell :=
  [.timestamp 20250103, .str "AAPL", .float 130, .float 129, .float 129,
   .float 130, .float 1000000, .float 130]

/-- The DataFrame holding `badPairRow`. -/
def badPairDF : DataFrame := ⟨standardColumns, [badPairRow]⟩

theorem pair_violation_fails_exactly_witness :
    failedExpectations
        (validate_batch badPairDF (build_expectation_suite "stock_data_expectation_suite")) =
      [("expect_column_pair_values_a_to_be_greater_than_b", "N/A",
        .expectColumnPairValuesAToBeGreaterThanB "high" "low")] :=
  pair_violation_fails_exactly badPairDF "stock_data_expectation_suite"
    (by decide) (by decide) (by decide) (by decide) (by decide)
    ⟨(.float 129, .float 129), by decide, 129, 129, rfl, rfl, by decide⟩

/-! ### Failure of rules that read an absent column -/

theorem eval_notNull_false_of_missing {df : DataFrame} {c : String} (h : c ∉ df.cols) :
    evalRule df (.expectColumnValuesToNotBeNull c) = false := by
  simp [evalRule, getCol_eq_none_iff.mpr h]

theorem eval_ofType_false_of_missing {df : DataFrame} {c ty : String} (h : c ∉ df.cols) :
    evalRule df (.expectColumnValuesToBeOfType c ty) = false := by
  simp [evalRule, getCol_eq_none_iff.mpr h]

theorem eval_inSet_false_of_missing {df : DataFrame} {c : String} {set : List String}
    (h : c ∉ df.cols) :
    evalRule df (.expectColumnValuesToBeInSet c set) = false := by
  simp [evalRule, getCol_eq_none_iff.mpr h]

theorem eval_pair_false_of_missing {df : DataFrame} {a b : String}
    (h : a ∉ df.cols ∨ b ∉ df.cols) :
    evalRule df (.expectColumnPairValuesAToBeGreaterThanB a b) = false := by
  rcases h with h | h
  · simp [evalRule, getCol_eq_none_iff.mpr h]
  · cases hga : getCol df a <;> simp [evalRule, hga, getCol_eq_none_iff.mpr h]

theorem eval_unique_false_of_missing {df : DataFrame}
    (h : "date" ∉ df.cols ∨ "symbol" ∉ df.cols) :
    evalRule df (.expectCompoundColumnsToBeUnique ["date", "symbol"]) = false := by
  rcases h with h | h
  · simp [evalRule, compoundKeys, columnsData, getCol_eq_none_iff.mpr h]
  · cases hgd : getCol df "date" <;>
      simp [evalRule, compoundKeys, columnsData, hgd, getCol_eq_none_iff.mpr h]

theorem eval_columnsMatchSet_false_of_missing {df : DataFrame} {cs : List String}
    (x : String) (hx : x ∈ cs) (h : x ∉ df.cols) :
    evalRule df (.expectTableColumnsToMatchSet cs) = false := by
  have hnall : ¬(∀ y ∈ cs, y ∈ df.cols) := fun hall => h (hall x hx)
  simp [evalRule, hnall]

/-- C8 amended: removing one required column `c` from an otherwise valid
table makes the column-set rule fail together with every rule that reads `c`
(its not-null rule if it has one, its type rule, the high/low pair rule when
`c` is `high` or `low`, the compound-uniqueness rule when `c` is `date` or
`symbol`, and the allowed-values rule when `c` is `symbol`), and no other
rule: a result entry fails exactly when it is the column-set rule or its rule
targets `c`. -/
theorem drop_column_failures (df : DataFrame) (name c : String)
    (hc : c ∈ standardColumns)
    (hsub : ∀ x ∈ df.cols, x ∈ standardColumns ∧ x ≠ c)
    (hsup : ∀ x ∈ standardColumns, x ≠ c → x ∈ df.cols)
    (htypes : typesOK df) (hhl : highLowOK df) (huniq : uniqueOK df)
    (hsym : symbolsOK df) (hrow : rowCountOK df) :
    ∀ (rr : ExpectationResult), rr ∈ validate_batch df (build_expectation_suite name) →
      (rr.success = false ↔
        rr.expectation_config = .expectTableColumnsToMatchSet standardColumns ∨
          c ∈ rr.expectation_config.targets) := by
  obtain ⟨hdate, hsy, hopen, hhigh, hlow, hclose, hadjAll, hadjAny, hvol⟩ := htypes
  have hcmiss : c ∉ df.cols := fun hx => (hsub c hx).2 rfl
  have notNull_of_ts : ∀ v : Cell, v.isTimestamp = true → (!v.isNull) = true := by
    intro v hv; cases v <;> simp_all [Cell.isTimestamp, Cell.isNull]
  have notNull_of_str : ∀ v : Cell, v.isStr = true → (!v.isNull) = true := by
    intro v hv; cases v <;> simp_all [Cell.isStr, Cell.isNull]
  have notNull_of_float : ∀ v : Cell, v.isFloat = true → (!v.isNull) = true := by
    intro v hv; cases v <;> simp_all [Cell.isFloat, Cell.isNull]
  have floatOrNull_of_float : ∀ v : Cell, v.isFloat = true → (v.isFloat || v.isNull) = true := by
    intro v hv; simp [hv]
  intro rr hrr
  rw [build_expectation_suite_eq] at hrr
  simp only [validate_batch, List.mem_map] at hrr
  obtain ⟨r, hr, rfl⟩ := hrr
  simp only [standardRuleList, List.mem_cons, List.not_mem_nil, or_false] at hr
  rcases hr with rfl | rfl | rfl | rfl | rfl | rfl | rfl | rfl | rfl | rfl | rfl | rfl |
    rfl | rfl | rfl | rfl | rfl | rfl
  · simp [eval_columnsMatchSet_false_of_missing c hc hcmiss]
  · by_cases hcd : c = "date"
    · subst hcd
      simp [eval_notNull_false_of_missing hcmiss, Rule.targets]
    · have hmem := hsup "date" (by simp [standardColumns]) (Ne.symm hcd)
      simp [eval_notNull_true hmem (colAll_imp notNull_of_ts hdate), Rule.targets, hcd]
  · by_cases hcd : c = "symbol"
    · subst hcd
      simp [eval_notNull_false_of_missing hcmiss, Rule.targets]
    · have hmem := hsup "symbol" (by simp [standardColumns]) (Ne.symm hcd)
      simp [eval_notNull_true hmem (colAll_imp notNull_of_str hsy), Rule.targets, hcd]
  · by_cases hcd : c = "open"
    · subst hcd
      simp [eval_notNull_false_of_missing hcmiss, Rule.targets]
    · have hmem := hsup "open" (by simp [standardColumns]) (Ne.symm hcd)
      simp [eval_notNull_true hmem (colAll_imp notNull_of_float hopen), Rule.targets, hcd]
  · by_cases hcd : c = "close"
    · subst hcd
      simp [eval_notNull_false_of_missing hcmiss, Rule.targets]
    · have hmem := hsup "close" (by simp [standardColumns]) (Ne.symm hcd)
      simp [eval_notNull_true hmem (colAll_imp notNull_of_float hclose), Rule.targets, hcd]
  · by_cases hcd : c = "volume"
    · subst hcd
      simp [eval_notNull_false_of_missing hcmiss, Rule.targets]
    · have hmem := hsup "volume" (by simp [standardColumns]) (Ne.symm hcd)
      simp [eval_notNull_true hmem (colAll_imp notNull_of_float hvol), Rule.targets, hcd]
  · by_cases hcd : c = "date"
    · subst hcd
      simp [eval_ofType_false_of_missing hcmiss, Rule.targets]
    · have hmem := hsup "date" (by simp [standardColumns]) (Ne.symm hcd)
      simp [eval_ofType_Timestamp_true hmem hrow hdate, Rule.targets, hcd]
  · by_cases hcd : c = "symbol"
    · subst hcd
      simp [eval_ofType_false_of_missing hcmiss, Rule.targets]
    · have hmem := hsup "symbol" (by simp [standardColumns]) (Ne.symm hcd)
      simp [eval_ofType_object_true hmem hrow hsy, Rule.targets, hcd]
  · by_cases hcd : c = "open"
    · subst hcd
      simp [eval_ofType_false_of_missing hcmiss, Rule.targets]
    · have hmem := hsup "open" (by simp [standardColumns]) (Ne.symm hcd)
      simp [eval_ofType_float64_true hmem (colAll_imp floatOrNull_of_float hopen)
        (colAnyIf_of_colAll_ne hrow hopen), Rule.targets, hcd]
  · by_cases hcd : c = "high"
    · subst hcd
      simp [eval_ofType_false_of_missing hcmiss, Rule.targets]
    · have hmem := hsup "high" (by simp [standardColumns]) (Ne.symm hcd)
      simp [eval_ofType_float64_true hmem (colAll_imp floatOrNull_of_float hhigh)
        (colAnyIf_of_colAll_ne hrow hhigh), Rule.targets, hcd]
  · by_cases hcd : c = "low"
    · subst hcd
      simp [eval_ofType_false_of_missing hcmiss, Rule.targets]
    · have hmem := hsup "low" (by simp [standardColumns]) (Ne.symm hcd)
      simp [eval_ofType_float64_true hmem (colAll_imp floatOrNull_of_float hlow)
        (colAnyIf_of_colAll_ne hrow hlow), Rule.targets, hcd]
  · by_cases hcd : c = "close"
    · subst hcd
      simp [eval_ofType_false_of_missing hcmiss, Rule.targets]
    · have hmem := hsup "close" (by simp [standardColumns]) (Ne.symm hcd)
      simp [eval_ofType_float64_true hmem (colAll_imp floatOrNull_of_float hclose)
        (colAnyIf_of_colAll_ne hrow hclose), Rule.targets, hcd]
  · by_cases hcd : c = "adj_close"
    · subst hcd
      simp [eval_ofType_false_of_missing hcmiss, Rule.targets]
    · have hmem := hsup "adj_close" (by simp [standardColumns]) (Ne.symm hcd)
      simp [eval_ofType_float64_true hmem hadjAll hadjAny, Rule.targets, hcd]
  · by_cases hcd : c = "volume"
    · subst hcd
      simp [eval_ofType_false_of_missing hcmiss, Rule.targets]
    · have hmem := hsup "volume" (by simp [standardColumns]) (Ne.symm hcd)
      simp [eval_ofType_float64_true hmem (colAll_imp floatOrNull_of_float hvol)
        (colAnyIf_of_colAll_ne hrow hvol), Rule.targets, hcd]
  · by_cases hch : c = "high"
    · subst hch
      simp [eval_pair_false_of_missing (Or.inl hcmiss), Rule.targets]
    · by_cases hcl : c = "low"
      · subst hcl
        simp [eval_pair_false_of_missing (Or.inr hcmiss), Rule.targets]
      · have hmemh := hsup "high" (by simp [standardColumns]) (Ne.symm hch)
        have hmeml := hsup "low" (by simp [standardColumns]) (Ne.symm hcl)
        simp [eval_pair_true hmemh hmeml hhl, Rule.targets, hch, hcl]
  · by_cases hcd : c = "date"
    · subst hcd
      simp [eval_unique_false_of_missing (Or.inl hcmiss), Rule.targets]
    · by_cases hcs : c = "symbol"
      · subst hcs
        simp [eval_unique_false_of_missing (Or.inr hcmiss), Rule.targets]
      · have hmemd := hsup "date" (by simp [standardColumns]) (Ne.symm hcd)
        have hmems := hsup "symbol" (by simp [standardColumns]) (Ne.symm hcs)
        simp [eval_unique_true hmemd hmems huniq, Rule.targets, hcd, hcs]
  · simp [eval_rowCount_true hrow, Rule.targets]
  · by_cases hcs : c = "symbol"
    · subst hcs
      simp [eval_inSet_false_of_missing hcmiss, Rule.targets]
    · have hmem := hsup "symbol" (by simp [standardColumns]) (Ne.symm hcs)
      simp [eval_inSet_true hmem hsym, Rule.targets, hcs]

/-- `sampleDF` with its `adj_close` column removed: 7 columns, one row. -/
def noAdjDF : DataFrame :=
  ⟨["date", "symbol", "open", "high", "low", "close", "volume"],
   [[.timestamp 20250103, .str "AAPL", .float 130, .float 131, .float 129,
     .float 130, .float 1000000]]⟩

/-- C8 counterexample: on the otherwise-valid table with `adj_close` removed,
the column-set rule is not the only failing rule: the type rule on
`adj_close` fails as well (its metric cannot resolve on a missing column), so
the run reports two failing rules, not one. -/
theorem drop_column_counterexample :
    (∀ x ∈ noAdjDF.cols, x ∈ standardColumns ∧ x ≠ "adj_close") ∧
    (∀ x ∈ standardColumns, x ≠ "adj_close" → x ∈ noAdjDF.cols) ∧
    typesOK noAdjDF ∧ highLowOK noAdjDF ∧ uniqueOK noAdjDF ∧ symbolsOK noAdjDF ∧
    rowCountOK noAdjDF ∧
    failedExpectations
        (validate_batch noAdjDF (build_expectation_suite "stock_data_expectation_suite")) =
      [("expect_table_columns_to_match_set", "N/A",
        .expectTableColumnsToMatchSet standardColumns),
       ("expect_column_values_to_be_of_type", "adj_close",
        .expectColumnValuesToBeOfType "adj_close" "float64")] := by
  refine ⟨by decide, by decide, by decide, by decide, by decide, by decide, by decide, ?_⟩
  rw [build_expectation_suite_eq, failedExpectations_validate]
  decide

theorem drop_column_failures_witness :
    ((ExpectationResult.mk (.expectTableRowCountToBeBetween 1)
        (evalRule noAdjDF (.expectTableRowCountToBeBetween 1))).success = false ↔
      (ExpectationResult.mk (.expectTableRowCountToBeBetween 1)
        (evalRule noAdjDF (.expectTableRowCountToBeBetween 1))).expectation_config =
          .expectTableColumnsToMatchSet standardColumns ∨
        "adj_close" ∈ (ExpectationResult.mk (.expectTableRowCountToBeBetween 1)
          (evalRule noAdjDF (.expectTableRowCountToBeBetween 1))).expectation_config.targets) :=
  drop_column_failures noAdjDF "stock_data_expectation_suite" "adj_close"
    (by decide) (by decide) (by decide) (by decide) (by decide) (by decide) (by decide) (by decide)
    (ExpectationResult.mk (.expectTableRowCountToBeBetween 1)
      (evalRule noAdjDF (.expectTableRowCountToBeBetween 1)))
    (by rw [build_expectation_suite_eq]; decide)

/-! ### Ingestion: `pull.py` -/

/-- A raw JSON record from the API's `data` array: an association list from
field names to values. -/
abbrev RawRecord := List (String × Cell)

/-- The query parameters `fetch_eod_with_date` sends, as the source builds
them (lines 78-86 of `pull.py`). -/
structure Params where
  access_key : String
  symbols : List String
  limit : Nat
  offset : Nat
  sort : String
  date_from : String
  date_to : String
deriving DecidableEq, Repr

/-- The remote system's reply to one `requests.get` call: the status code,
the body text, and the `data` entry of the parsed JSON body (when present). -/
structure HttpResponse where
  status_code : Nat
  text : String
  json_data : Option (List RawRecord)
deriving DecidableEq, Repr

/-- The exceptions `fetch_eod_with_date` can raise: the `Exception` it
raises itself on a non-200 status (carrying only its message string), or the
`KeyError` from `data["data"]` when the body has no `data` entry. -/
inductive FetchError where
  | apiRequestFailed (message : String) : FetchError
  | keyError (key : String) : FetchError
deriving DecidableEq, Repr

deriving instance DecidableEq for Except

/-- Result of one `fetch_eod_with_date` call, together with the list of HTTP
requests it issued. -/
structure FetchOutcome where
  result : Except FetchError (List RawRecord)
  requests : List Params
deriving DecidableEq, Repr

/-- `fetch_eod_with_date` from `pull.py`: builds the parameters, issues one
`requests.get` (modelled by the `http_get` oracle, with the issued request
recorded), raises `Exception(f"API request failed: {status}")` when the
status code differs from 200, and otherwise returns `data["data"]`
unvalidated. -/
def fetch_eod_with_date (http_get : Params → HttpResponse) (api_key : String)
    (tickers : List String) (start_date end_date : String) (limit offset : Nat) :
    FetchOutcome :=
  let params : Params := ⟨api_key, tickers, limit, offset, "ASC", start_date, end_date⟩
  let response := http_get params
  { result :=
      if response.status_code ≠ 200 then
        .error (.apiRequestFailed ("API request failed: " ++ toString response.status_code))
      else
        match response.json_data with
        | some d => .ok d
        | none => .error (.keyError "data"),
    requests := [params] }

/-- C5 amended: every call to `fetch_eod_with_date` issues exactly one
bounded request (with the given page size and offset); whenever the status
code is not exactly 200 it fails with the raised error carrying the numeric
status code in its message (the response body is only logged, not carried);
and on status exactly 200 it returns the raw `data` array unvalidated. -/
theorem fetch_spec (http_get : Params → HttpResponse) (api_key : String)
    (tickers : List String) (start_date end_date : String) (limit offset : Nat) :
    (fetch_eod_with_date http_get api_key tickers start_date end_date limit offset).requests =
      [⟨api_key, tickers, limit, offset, "ASC", start_date, end_date⟩] ∧
    ((http_get ⟨api_key, tickers, limit, offset, "ASC", start_date, end_date⟩).status_code ≠ 200 →
      (fetch_eod_with_date http_get api_key tickers start_date end_date limit offset).result =
        .error (.apiRequestFailed ("API request failed: " ++
          toString (http_get
            ⟨api_key, tickers, limit, offset, "ASC", start_date, end_date⟩).status_code))) ∧
    ((http_get ⟨api_key, tickers, limit, offset, "ASC", start_date, end_date⟩).status_code = 200 →
      ∀ d, (http_get ⟨api_key, tickers, limit, offset, "ASC",
          start_date, end_date⟩).json_data = some d →
        (fetch_eod_with_date http_get api_key tickers start_date end_date limit offset).result =
          .ok d) := by
  refine ⟨rfl, ?_, ?_⟩
  · intro h
    simp [fetch_eod_with_date, h]
  · intro h d hd
    simp [fetch_eod_with_date, h, hd]

theorem fetch_spec_witness :
    (fetch_eod_with_date (fun _ => ⟨200, "", some []⟩) "key" ["AAPL"]
        "2025-01-01" "2025-01-10" 1000 0).result = .ok [] :=
  (fetch_spec (fun _ => ⟨200, "", some []⟩) "key" ["AAPL"]
    "2025-01-01" "2025-01-10" 1000 0).2.2 rfl [] rfl

/-- A 201 reply: success-class but not exactly 200, with a well-formed body. -/
def resp201 : HttpResponse := ⟨201, "Created", some [[("date", .str "2025-01-03")]]⟩

/-- A 403 reply whose body text the raised error does not carry. -/
def resp403 : HttpResponse := ⟨403, "FORBIDDEN", none⟩

/-- C5 counterexample: a 200-class status (201) is treated as a hard failure,
because the source tests `status_code != 200` exactly; and the raised error's
message carries only the numeric status, not the response body text (the 403
case's error message does not mention the body "FORBIDDEN"). -/
theorem fetch_200_class_counterexample :
    (200 ≤ 201 ∧ 201 < 300) ∧
    (fetch_eod_with_date (fun _ => resp201) "key" ["AAPL"]
        "2025-01-01" "2025-01-10" 1000 0).result =
      .error (.apiRequestFailed "API request failed: 201") ∧
    (fetch_eod_with_date (fun _ => resp403) "key" ["AAPL"]
        "2025-01-01" "2025-01-10" 1000 0).result =
      .error (.apiRequestFailed "API request failed: 403") :=
  ⟨by decide, by decide, by decide⟩

/-- The content of a parquet file: a columnar store of the named columns,
the row count, and per-column value arrays. -/
structure ParquetFile where
  columns : List String
  num_rows : Nat
  column_data : List (List Cell)
deriving DecidableEq, Repr

/-- `df.to_parquet(path, index=False)`: the columnar content written, with
no index column. -/
def DataFrame.to_parquet (df : DataFrame) : ParquetFile :=
  ⟨df.cols, df.rows.length,
   (List.range df.cols.length).map fun i => df.rows.map fun r => r.getD i .null⟩

/-- `pd.read_parquet`: reassembles the row-major frame from the columnar
file. -/
def read_parquet (f : ParquetFile) : DataFrame :=
  ⟨f.columns,
   (List.range f.num_rows).map fun j => f.column_data.map fun col => col.getD j .null⟩

/-- `get_batch` from `validation.py`: loads the parquet file into the
in-memory batch dataframe. -/
def get_batch (parquet_file : ParquetFile) : DataFrame := read_parquet parquet_file

/-- C7: persisting a (rectangular) table to the columnar format and
re-reading it yields the identical table: same columns, same row order, same
values. -/
theorem parquet_roundtrip (df : DataFrame)
    (hrect : ∀ r ∈ df.rows, r.length = df.cols.length) :
    get_batch df.to_parquet = df := by
  obtain ⟨cols, rows⟩ := df
  simp only [DataFrame.cols] at hrect
  unfold get_batch read_parquet DataFrame.to_parquet
  simp only [DataFrame.mk.injEq, true_and]
  apply List.ext_getElem
  · simp
  · intro j h1 h2
    have hj : j < rows.length := by simpa using h2
    simp only [List.getElem_map, List.getElem_range]
    apply List.ext_getElem
    · simp [hrect _ (List.getElem_mem hj)]
    · intro i hi1 hi2
      have hi : i < cols.length := by simpa using hi1
      simp only [List.getElem_map, List.getElem_range]
      rw [List.getD_eq_getElem _ _ (by simpa using hj)]
      simp only [List.getElem_map]
      rw [List.getD_eq_getElem _ _ (by rw [hrect _ (List.getElem_mem hj)]; exact hi)]

theorem parquet_roundtrip_witness : get_batch sampleDF.to_parquet = sampleDF :=
  parquet_roundtrip sampleDF (by decide)

/-- A `pathlib.Path`: whether it is absolute, plus its components. -/
structure PyPath where
  absolute : Bool
  parts : List String
deriving DecidableEq, Repr

/-- `p / q` in pathlib: joining with an absolute right operand discards the
left operand entirely. -/
def PyPath.div (p q : PyPath) : PyPath :=
  if q.absolute then q else ⟨p.absolute, p.parts ++ q.parts⟩

/-- `path.parent` in pathlib. -/
def PyPath.parent (p : PyPath) : PyPath := ⟨p.absolute, p.parts.dropLast⟩

/-- Filesystem actions `save_to_parquet` performs, in order. -/
inductive FsEffect where
  | mkdirParents (p : PyPath) : FsEffect
  | writeParquet (p : PyPath) (content : ParquetFile) : FsEffect
deriving DecidableEq, Repr

/-- `save_to_parquet` from `pull.py`: computes
`output_path = Path("data/raw") / filename`, creates the parent directories
(`parents=True, exist_ok=True`), and writes the table's parquet content with
`index=False` at `output_path`. -/
def save_to_parquet (df : DataFrame) (filename : PyPath) : List FsEffect :=
  let output_path := PyPath.div ⟨false, ["data", "raw"]⟩ filename
  [.mkdirParents output_path.parent, .writeParquet output_path df.to_parquet]

/-- C10: `save_to_parquet` joins the filename under the fixed `data/raw`
prefix: a relative filename is written at `data/raw/<filename>` (parents
created first), while an absolute filename makes the pathlib join discard the
prefix, so the file is written at exactly that absolute path. -/
theorem save_to_parquet_path (df : DataFrame) (filename : PyPath) :
    (filename.absolute = false →
      save_to_parquet df filename =
        [.mkdirParents (PyPath.parent ⟨false, ["data", "raw"] ++ filename.parts⟩),
         .writeParquet ⟨false, ["data", "raw"] ++ filename.parts⟩ df.to_parquet]) ∧
    (filename.absolute = true →
      save_to_parquet df filename =
        [.mkdirParents filename.parent, .writeParquet filename df.to_parquet]) := by
  constructor <;> intro h <;> simp [save_to_parquet, PyPath.div, h]

theorem save_to_parquet_path_witness :
    save_to_parquet sampleDF ⟨false, ["eod_data.parquet"]⟩ =
      [.mkdirParents (PyPath.parent ⟨false, ["data", "raw", "eod_data.parquet"]⟩),
       .writeParquet ⟨false, ["data", "raw", "eod_data.parquet"]⟩ sampleDF.to_parquet] ∧
    save_to_parquet sampleDF ⟨true, ["tmp", "test.parquet"]⟩ =
      [.mkdirParents (PyPath.parent ⟨true, ["tmp", "test.parquet"]⟩),
       .writeParquet ⟨true, ["tmp", "test.parquet"]⟩ sampleDF.to_parquet] :=
  ⟨(save_to_parquet_path sampleDF ⟨false, ["eod_data.parquet"]⟩).1 rfl,
   (save_to_parquet_path sampleDF ⟨true, ["tmp", "test.parquet"]⟩).2 rfl⟩

/-! ### `process_dataframe` -/

/-- Errors raised by the pandas operations the code uses. -/
inductive PdError where
  | keyError (key : String) : PdError
  | valueError (message : String) : PdError
deriving DecidableEq, Repr

/-- Fold one record's keys into the accumulated column list, keeping first
appearance order. -/
def addKeys (acc : List String) (r : RawRecord) : List String :=
  r.foldl (fun acc2 kv => if kv.1 ∈ acc2 then acc2 else acc2 ++ [kv.1]) acc

/-- Column names of `pd.DataFrame(records)`: all keys, in order of first
appearance (the empty record list gives a frame with no columns). -/
def collectCols (records : List RawRecord) : List String :=
  records.foldl addKeys []

/-- `pd.DataFrame(records)`: the row-major frame; a record's missing keys
become missing values. -/
def pdDataFrame (records : List RawRecord) : DataFrame :=
  ⟨collectCols records,
   records.map fun r => (collectCols records).map fun c => (r.lookup c).getD .null⟩

/-- Split a character list into the groups separated by dashes. -/
def splitDash : List Char → List (List Char)
  | [] => [[]]
  | c :: rest =>
    if c = '-' then [] :: splitDash rest
    else
      match splitDash rest with
      | [] => [[c]]
      | g :: gs => (c :: g) :: gs

/-- Read a decimal digit string. -/
def digitsToNat (acc : Nat) : List Char → Option Nat
  | [] => some acc
  | c :: rest =>
    if c.isDigit then digitsToNat (acc * 10 + (c.toNat - 48)) rest else none

/-- Parse the leading `YYYY-MM-DD` of a date string to the embedding's
monotone date code `y*10000 + m*100 + d`. -/
def parseDateCode (s : String) : Option Int :=
  match splitDash (s.toList.take 10) with
  | [y, m, d] =>
    match digitsToNat 0 y, digitsToNat 0 m, digitsToNat 0 d with
    | some yn, some mn, some dn =>
      if y.length = 4 ∧ m.length = 2 ∧ d.length = 2 ∧ 1 ≤ mn ∧ mn ≤ 12 ∧
          1 ≤ dn ∧ dn ≤ 31 then
        some ((yn : Int) * 10000 + (mn : Int) * 100 + (dn : Int))
      else none
    | _, _, _ => none
  | _ => none

/-- `pd.to_datetime` on one cell: parses a date string into a timestamp,
keeps timestamps and missing values, fails otherwise. -/
def pdToDatetimeCell : Cell → Except PdError Cell
  | .str s =>
    match parseDateCode s with
    | some t => .ok (.timestamp t)
    | none => .error (.valueError s)
  | .timestamp t => .ok (.timestamp t)
  | .null => .ok .null
  | .int _ => .error (.valueError "unsupported")
  | .float _ => .error (.valueError "unsupported")

/-- Elementwise effectful map, stopping at the first error. -/
def mapExcept {α β ε : Type} (f : α → Except ε β) : List α → Except ε (List β)
  | [] => .ok []
  | a :: as =>
    match f a with
    | .error e => .error e
    | .ok b =>
      match mapExcept f as with
      | .error e => .error e
      | .ok bs => .ok (b :: bs)

/-- `df[name] = values`: replace the named column's values (no change when
the column is absent; the code only assigns existing columns). -/
def setCol (df : DataFrame) (name : String) (vals : List Cell) : DataFrame :=
  match colIdx df.cols name with
  | none => df
  | some i => ⟨df.cols, df.rows.zipWith (fun r v => r.set i v) vals⟩

/-- `df[[names]]`: project to the named columns in the given order;
`KeyError` when one is absent. -/
def selectCols (df : DataFrame) (names : List String) : Except PdError DataFrame :=
  match names.find? (fun n => !(df.cols.contains n)) with
  | some n => .error (.keyError n)
  | none =>
      .ok ⟨names,
        df.rows.map fun r => names.map fun n => r.getD ((colIdx df.cols n).getD 0) .null⟩

/-- Constructor rank of a cell, for the total sort order. -/
def Cell.rank : Cell → Nat
  | .null => 0
  | .timestamp _ => 1
  | .int _ => 2
  | .float _ => 3
  | .str _ => 4

/-- String payload of a cell (empty for non-strings). -/
def Cell.strv : Cell → String
  | .str s => s
  | _ => ""

/-- Numeric payload of a cell (zero for non-numerics). -/
def Cell.qv : Cell → ℚ
  | .timestamp t => (t : ℚ)
  | .int n => (n : ℚ)
  | .float q => q
  | _ => 0

/-- The lexicographic key a cell sorts by: rank, then string payload, then
numeric payload. Cells of equal rank compare by their own payload. -/
def cellKey (c : Cell) : Nat ×ₗ (String ×ₗ ℚ) :=
  toLex (c.rank, toLex (c.strv, c.qv))

/-- Sort key of a row for a two-column sort reading positions `i` and `j`. -/
def rowKey (i j : Nat) (r : List Cell) :
    (Nat ×ₗ (String ×ₗ ℚ)) ×ₗ (Nat ×ₗ (String ×ₗ ℚ)) :=
  toLex (cellKey (r.getD i .null), cellKey (r.getD j .null))

/-- Row comparison for the two-column sort. -/
def rowLe (i j : Nat) (a b : List Cell) : Prop :=
  rowKey i j a ≤ rowKey i j b

instance (i j : Nat) : DecidableRel (rowLe i j) := fun a b => by
  unfold rowLe; infer_instance

instance (i j : Nat) : IsTotal (List Cell) (rowLe i j) :=
  ⟨fun a b => le_total (rowKey i j a) (rowKey i j b)⟩

instance (i j : Nat) : IsTrans (List Cell) (rowLe i j) :=
  ⟨fun _ _ _ hab hbc => le_trans hab hbc⟩

/-- `df.sort_values([c1, c2]).reset_index(drop=True)`: stable ascending sort
of the rows by the two named columns (the embedding has no index column, so
resetting the index is the identity). -/
def sort_values (df : DataFrame) (c1 c2 : String) : DataFrame :=
  ⟨df.cols,
   List.insertionSort
     (rowLe ((colIdx df.cols c1).getD 0) ((colIdx df.cols c2).getD 0)) df.rows⟩

/-- `process_dataframe` from `pull.py`: builds the frame from the raw
records, parses the `date` column with `pd.to_datetime` (a `KeyError` when
the frame has no `date` column, as on the empty record list), projects to the
eight standard columns, sorts by `(date, symbol)` and resets the index. -/
def process_dataframe (stock_data : List RawRecord) : Except PdError DataFrame :=
  match getCol (pdDataFrame stock_data) "date" with
  | none => .error (.keyError "date")
  | some vs =>
    match mapExcept pdToDatetimeCell vs with
    | .error e => .error e
    | .ok dateVals =>
      match selectCols (setCol (pdDataFrame stock_data) "date" dateVals) standardColumns with
      | .error e => .error e
      | .ok df2 => .ok (sort_values df2 "date" "symbol")

/-! ### Lemmas about the `process_dataframe` pipeline -/

theorem mapExcept_ok_length {α β ε : Type} {f : α → Except ε β} :
    ∀ {l : List α} {l' : List β}, mapExcept f l = .ok l' → l'.length = l.length := by
  intro l
  induction l with
  | nil =>
    intro l' h
    injection h with h'
    rw [← h']
    rfl
  | cons a as ih =>
    intro l' h
    unfold mapExcept at h
    cases hfa : f a with
    | error e => rw [hfa] at h; exact absurd h (by simp)
    | ok b =>
      rw [hfa] at h
      cases hm : mapExcept f as with
      | error e => rw [hm] at h; exact absurd h (by simp)
      | ok bs =>
        rw [hm] at h
        injection h with h'
        rw [← h']
        simp [ih hm]

theorem mapExcept_map {α β γ ε : Type} (f : β → Except ε γ) (gc : α → β) (hc : α → γ) :
    ∀ (l : List α), (∀ a ∈ l, f (gc a) = .ok (hc a)) →
      mapExcept f (l.map gc) = .ok (l.map hc)
  | [], _ => rfl
  | a :: as, h => by
    simp only [List.map_cons]
    unfold mapExcept
    rw [h a (List.mem_cons_self a as),
      mapExcept_map f gc hc as (fun x hx => h x (List.mem_cons_of_mem _ hx))]

theorem mem_addKeys_of_mem : ∀ (r : RawRecord) (acc : List String) (k : String),
    k ∈ acc → k ∈ addKeys acc r
  | [], _, _, h => h
  | kv :: rest, acc, k, h => by
    show k ∈ addKeys (if kv.1 ∈ acc then acc else acc ++ [kv.1]) rest
    apply mem_addKeys_of_mem rest
    by_cases hm : kv.1 ∈ acc
    · simpa [hm] using h
    · simp only [if_neg hm, List.mem_append]
      exact Or.inl h

theorem mem_addKeys_of_lookup : ∀ (r : RawRecord) (acc : List String) (k : String),
    (r.lookup k).isSome = true → k ∈ addKeys acc r
  | [], _, k, h => by simp [List.lookup] at h
  | kv :: rest, acc, k, h => by
    show k ∈ addKeys (if kv.1 ∈ acc then acc else acc ++ [kv.1]) rest
    by_cases heq : k = kv.1
    · apply mem_addKeys_of_mem
      by_cases hm : kv.1 ∈ acc
      · simp only [if_pos hm]
        exact heq ▸ hm
      · simp only [if_neg hm, List.mem_append, List.mem_singleton]
        exact Or.inr heq
    · apply mem_addKeys_of_lookup rest
      obtain ⟨k1, v1⟩ := kv
      rw [List.lookup] at h
      simp only at heq
      rw [show (k == k1) = false by simpa using heq] at h
      exact h

theorem foldl_addKeys_mono : ∀ (records : List RawRecord) (acc : List String) (k : String),
    k ∈ acc → k ∈ records.foldl addKeys acc
  | [], _, _, h => h
  | r :: rs, acc, k, h => foldl_addKeys_mono rs _ k (mem_addKeys_of_mem r acc k h)

theorem mem_collectCols_aux : ∀ (records : List RawRecord) (acc : List String) (k : String),
    (∃ r ∈ records, (r.lookup k).isSome = true) → k ∈ records.foldl addKeys acc
  | [], _, _, h => by simp at h
  | r0 :: rs, acc, k, h => by
    simp only [List.foldl_cons]
    rcases h with ⟨r, hr, hl⟩
    rcases List.mem_cons.mp hr with rfl | hr'
    · exact foldl_addKeys_mono rs _ k (mem_addKeys_of_lookup r acc k hl)
    · exact mem_collectCols_aux rs (addKeys acc r0) k ⟨r, hr', hl⟩

theorem mem_collectCols {records : List RawRecord} {k : String}
    (h : ∃ r ∈ records, (r.lookup k).isSome = true) : k ∈ collectCols records :=
  mem_collectCols_aux records [] k h

theorem colIdx_spec {cols : List String} {name : String} :
    ∀ {i : Nat}, colIdx cols name = some i → ∃ h : i < cols.length, cols.get ⟨i, h⟩ = name := by
  induction cols with
  | nil => intro i h; simp [colIdx] at h
  | cons c cs ih =>
    intro i h
    rw [colIdx] at h
    by_cases hc : c = name
    · rw [if_pos hc] at h
      injection h with h'
      rw [← h']
      exact ⟨by simp, hc⟩
    · rw [if_neg hc] at h
      cases hcs : colIdx cs name with
      | none => rw [hcs] at h; simp at h
      | some i' =>
        rw [hcs] at h
        simp only [Option.map_some'] at h
        obtain ⟨hlt, hget⟩ := ih hcs
        injection h with h''
        rw [← h'']
        exact ⟨by simpa using Nat.succ_lt_succ hlt, by simpa using hget⟩

theorem getCol_pdDataFrame (records : List RawRecord) (k : String)
    (hk : k ∈ collectCols records) :
    getCol (pdDataFrame records) k =
      some (records.map fun r => (r.lookup k).getD .null) := by
  obtain ⟨i, hi⟩ := Option.isSome_iff_exists.mp
    (colIdx_isSome_iff.mpr (show k ∈ (pdDataFrame records).cols from hk))
  obtain ⟨hlt, hget⟩ := colIdx_spec hi
  rw [getCol, hi]
  simp only [Option.map_some']
  congr 1
  show (records.map fun r => (collectCols records).map fun c => (r.lookup c).getD .null).map
      (fun r' => r'.getD i .null) = _
  rw [List.map_map]
  apply List.map_eq_map_iff.mpr
  intro r hr
  simp only [Function.comp]
  rw [List.getD_eq_getElem _ _ (by simpa using (show i < (collectCols records).length from hlt))]
  simp only [List.getElem_map]
  have : (collectCols records)[i] = k := by
    rw [← hget]
    rfl
  rw [this]

theorem setCol_cols (df : DataFrame) (name : String) (vals : List Cell) :
    (setCol df name vals).cols = df.cols := by
  unfold setCol
  cases colIdx df.cols name <;> rfl

theorem selectCols_ok_shape {df : DataFrame} {names : List String} {df' : DataFrame}
    (h : selectCols df names = .ok df') :
    df'.cols = names ∧
      df'.rows = df.rows.map fun r =>
        names.map fun n => r.getD ((colIdx df.cols n).getD 0) .null := by
  unfold selectCols at h
  cases hf : names.find? (fun n => !(df.cols.contains n)) with
  | some n => rw [hf] at h; exact absurd h (by simp)
  | none =>
    rw [hf] at h
    injection h with h'
    rw [← h']
    exact ⟨rfl, rfl⟩

/-- C9: `process_dataframe` on the empty record list raises a `KeyError` for
the missing `date` column of the empty frame rather than returning an empty
8-column table, and every successful run returns a table with at least one
row: the ingestion path can never produce the empty table. -/
theorem process_dataframe_empty_raises :
    process_dataframe [] = .error (.keyError "date") ∧
    ∀ (stock_data : List RawRecord) (df : DataFrame),
      process_dataframe stock_data = .ok df → df.rows ≠ [] := by
  constructor
  · rfl
  · intro sd df h
    unfold process_dataframe at h
    split at h
    · exact absurd h (by simp)
    · rename_i vs hg
      split at h
      · exact absurd h (by simp)
      · rename_i dateVals hm
        split at h
        · exact absurd h (by simp)
        · rename_i df2 hs
          injection h with h'
          have hsdne : sd ≠ [] := by
            intro hnil
            rw [hnil] at hg
            simp [pdDataFrame, collectCols, getCol, colIdx] at hg
          have hvs : vs.length = sd.length := by
            have hg' := hg
            unfold getCol at hg'
            cases hci : colIdx (pdDataFrame sd).cols "date" with
            | none => rw [hci] at hg'; simp at hg'
            | some i =>
              rw [hci] at hg'
              simp only [Option.map_some'] at hg'
              injection hg' with h2
              rw [← h2]
              simp [pdDataFrame]
          have hdv : dateVals.length = vs.length := mapExcept_ok_length hm
          have hset : (setCol (pdDataFrame sd) "date" dateVals).rows.length = sd.length := by
            unfold setCol
            cases hci : colIdx (pdDataFrame sd).cols "date" with
            | none => simp [pdDataFrame]
            | some i =>
              simp only
              rw [List.length_zipWith]
              simp [pdDataFrame, hdv, hvs]
          have hdf2 : df2.rows.length = sd.length := by
            obtain ⟨-, hrows⟩ := selectCols_ok_shape hs
            rw [hrows, List.length_map, hset]
          rw [← h']
          unfold sort_values
          simp only
          intro hnil
          have h0 := congrArg List.length hnil
          rw [List.length_insertionSort] at h0
          rw [hdf2] at h0
          simp only [List.length_nil] at h0
          exact hsdne (List.length_eq_zero.mp h0)

/-- The one-record API payload the repository's tests mock. -/
def rawRecord0 : RawRecord :=
  [("date", .str "2025-01-03"), ("symbol", .str "AAPL"), ("open", .float 130),
   ("high", .float 131), ("low", .float 129), ("close", .float 130),
   ("volume", .int 1000000), ("adj_close", .float 130)]

theorem process_dataframe_empty_raises_witness :
    (⟨standardColumns,
      [[.timestamp 20250103, .str "AAPL", .float 130, .float 131, .float 129,
        .float 130, .int 1000000, .float 130]]⟩ : DataFrame).rows ≠ [] :=
  process_dataframe_empty_raises.2 [rawRecord0]
    ⟨standardColumns,
      [[.timestamp 20250103, .str "AAPL", .float 130, .float 131, .float 129,
        .float 130, .int 1000000, .float 130]]⟩ (by decide)

/-- The parsed `date` cell of a raw record (the value `pd.to_datetime` gives
its date field). -/
def parsedDate (r : RawRecord) : Cell :=
  match r.lookup "date" with
  | some (.str s) =>
    match parseDateCode s with
    | some t => .timestamp t
    | none => .null
  | _ => .null

/-- The record's date field is a parseable date string. -/
def dateParseable (r : RawRecord) : Bool :=
  match r.lookup "date" with
  | some (.str s) => (parseDateCode s).isSome
  | _ => false

/-- The row `process_dataframe` produces for one raw record: the eight
standard fields in order, with `date` parsed and every other field taken
verbatim (no type or range validation). -/
def expectedRow (r : RawRecord) : List Cell :=
  standardColumns.map fun c => if c = "date" then parsedDate r else (r.lookup c).getD .null


theorem dateParseable_spec {r : RawRecord} (h : dateParseable r = true) :
    ∃ s t, r.lookup "date" = some (.str s) ∧ parseDateCode s = some t := by
  unfold dateParseable at h
  cases hl : r.lookup "date" with
  | none => rw [hl] at h; simp at h
  | some c =>
    rw [hl] at h
    cases c with
    | str s =>
      change (parseDateCode s).isSome = true at h
      obtain ⟨t, ht⟩ := Option.isSome_iff_exists.mp h
      exact ⟨s, t, rfl, ht⟩
    | null => simp at h
    | timestamp t => simp at h
    | int n => simp at h
    | float q => simp at h

theorem parsedDate_eq {r : RawRecord} {s : String} {t : Int}
    (hl : r.lookup "date" = some (.str s)) (hp : parseDateCode s = some t) :
    parsedDate r = Cell.timestamp t := by
  unfold parsedDate
  rw [hl]
  simp [hp]

/-- C6: on a non-empty record list whose records carry the eight required
fields with parseable date strings, `process_dataframe` succeeds and returns
a table with exactly the eight columns in the fixed order, rows of width 8
that are a permutation of the records' projections (values taken verbatim —
no type or range validation — with the `date` field parsed to a timestamp),
sorted ascending by the `(date, symbol)` key order. -/
theorem process_dataframe_spec (stock_data : List RawRecord)
    (hne : stock_data ≠ [])
    (hkeys : ∀ r ∈ stock_data, ∀ k ∈ standardColumns, (r.lookup k).isSome = true)
    (hdates : ∀ r ∈ stock_data, dateParseable r = true) :
    ∃ df : DataFrame, process_dataframe stock_data = .ok df ∧
      df.cols = standardColumns ∧
      (∀ r ∈ df.rows, r.length = 8) ∧
      df.rows.Perm (stock_data.map expectedRow) ∧
      List.Sorted (rowLe 0 1) df.rows ∧
      (∀ r ∈ df.rows, ∃ t : Int, r.getD 0 .null = .timestamp t) := by
  have hex : ∀ k ∈ standardColumns, ∃ r ∈ stock_data, (r.lookup k).isSome = true := by
    intro k hk
    obtain ⟨r0, hr0⟩ := List.exists_mem_of_ne_nil stock_data hne
    exact ⟨r0, hr0, hkeys r0 hr0 k hk⟩
  have hmemcols : ∀ k ∈ standardColumns, k ∈ collectCols stock_data := fun k hk =>
    mem_collectCols (hex k hk)
  have hdmem : "date" ∈ collectCols stock_data := hmemcols _ (by simp [standardColumns])
  have hg : getCol (pdDataFrame stock_data) "date" =
      some (stock_data.map fun r => (r.lookup "date").getD .null) :=
    getCol_pdDataFrame _ _ hdmem
  have hparse : ∀ r ∈ stock_data,
      pdToDatetimeCell ((r.lookup "date").getD .null) = .ok (parsedDate r) := by
    intro r hr
    obtain ⟨s, t, hl, hp⟩ := dateParseable_spec (hdates r hr)
    rw [hl, Option.getD_some, parsedDate_eq hl hp]
    show (match parseDateCode s with
      | some u => Except.ok (Cell.timestamp u)
      | none => Except.error (PdError.valueError s)) = Except.ok (Cell.timestamp t)
    rw [hp]
  have hmap : mapExcept pdToDatetimeCell
      (stock_data.map fun r => (r.lookup "date").getD .null) =
      .ok (stock_data.map parsedDate) :=
    mapExcept_map _ _ _ stock_data hparse
  obtain ⟨id, hid⟩ := Option.isSome_iff_exists.mp (colIdx_isSome_iff.mpr hdmem)
  obtain ⟨hidlt, hidget⟩ := colIdx_spec hid
  have hset : setCol (pdDataFrame stock_data) "date" (stock_data.map parsedDate) =
      ⟨collectCols stock_data,
       stock_data.map fun r =>
         ((collectCols stock_data).map fun c => (r.lookup c).getD .null).set id
           (parsedDate r)⟩ := by
    have hid' : colIdx (pdDataFrame stock_data).cols "date" = some id := hid
    unfold setCol
    simp only [hid']
    show (⟨collectCols stock_data,
      List.zipWith (fun (r : List Cell) (v : Cell) => r.set id v)
        (stock_data.map fun r => (collectCols stock_data).map fun c => (r.lookup c).getD .null)
        (stock_data.map parsedDate)⟩ : DataFrame) = _
    rw [List.zipWith_map (fun (r : List Cell) (v : Cell) => r.set id v)
      (fun r : RawRecord => (collectCols stock_data).map fun c => (r.lookup c).getD .null)
      parsedDate stock_data stock_data,
      List.zipWith_same]
  have hproj : ∀ r : RawRecord,
      standardColumns.map (fun n =>
        (((collectCols stock_data).map fun c => (r.lookup c).getD .null).set id
          (parsedDate r)).getD ((colIdx (collectCols stock_data) n).getD 0) .null) =
      expectedRow r := by
    intro r
    unfold expectedRow
    apply List.map_eq_map_iff.mpr
    intro n hn
    obtain ⟨i_n, hin⟩ := Option.isSome_iff_exists.mp (colIdx_isSome_iff.mpr (hmemcols n hn))
    obtain ⟨hinlt, hinget⟩ := colIdx_spec hin
    rw [hin]
    simp only [Option.getD_some]
    rw [List.getD_eq_getElem _ _ (by simpa using hinlt)]
    by_cases hnd : n = "date"
    · subst hnd
      have hieq : i_n = id := by
        rw [hin] at hid
        injection hid
      subst hieq
      rw [List.getElem_set_self]
      rw [if_pos rfl]
    · have hne' : id ≠ i_n := by
        intro he
        apply hnd
        have h1 : (collectCols stock_data).get ⟨i_n, hinlt⟩ = n := hinget
        have h2 : (collectCols stock_data).get ⟨id, hidlt⟩ = "date" := hidget
        rw [← h1, ← h2]
        congr 1
        exact Fin.ext he.symm
      rw [List.getElem_set_ne hne']
      simp only [List.getElem_map]
      rw [show (collectCols stock_data)[i_n] = n from hinget, if_neg hnd]
  have hsel : selectCols
      ⟨collectCols stock_data,
       stock_data.map fun r =>
         ((collectCols stock_data).map fun c => (r.lookup c).getD .null).set id
           (parsedDate r)⟩ standardColumns =
      .ok ⟨standardColumns, stock_data.map expectedRow⟩ := by
    unfold selectCols
    have hfind : standardColumns.find?
        (fun n => !((⟨collectCols stock_data,
          stock_data.map fun r =>
            ((collectCols stock_data).map fun c => (r.lookup c).getD .null).set id
              (parsedDate r)⟩ : DataFrame).cols.contains n)) = none := by
      apply List.find?_eq_none.mpr
      intro n hn
      simpa using hmemcols n hn
    rw [hfind]
    have hrows : (stock_data.map fun r =>
        ((collectCols stock_data).map fun c => (r.lookup c).getD .null).set id
          (parsedDate r)).map (fun r' => standardColumns.map fun n =>
            r'.getD ((colIdx (collectCols stock_data) n).getD 0) .null) =
        stock_data.map expectedRow := by
      rw [List.map_map]
      apply List.map_eq_map_iff.mpr
      intro r _
      exact hproj r
    show Except.ok (⟨standardColumns, (stock_data.map fun r =>
        ((collectCols stock_data).map fun c => (r.lookup c).getD .null).set id
          (parsedDate r)).map (fun r' => standardColumns.map fun n =>
            r'.getD ((colIdx (collectCols stock_data) n).getD 0) .null)⟩ : DataFrame) = _
    rw [hrows]
  have hrun : process_dataframe stock_data =
      .ok (sort_values ⟨standardColumns, stock_data.map expectedRow⟩ "date" "symbol") := by
    simp only [process_dataframe, hg, hmap, hset, hsel]
  have hsv : sort_values ⟨standardColumns, stock_data.map expectedRow⟩ "date" "symbol" =
      ⟨standardColumns, List.insertionSort (rowLe 0 1) (stock_data.map expectedRow)⟩ := rfl
  rw [hsv] at hrun
  refine ⟨⟨standardColumns, List.insertionSort (rowLe 0 1) (stock_data.map expectedRow)⟩,
    hrun, rfl, ?_, ?_, ?_, ?_⟩
  · intro r hr
    rw [show (⟨standardColumns,
        List.insertionSort (rowLe 0 1) (stock_data.map expectedRow)⟩ : DataFrame).rows =
      List.insertionSort (rowLe 0 1) (stock_data.map expectedRow) from rfl] at hr
    rw [List.mem_insertionSort] at hr
    obtain ⟨rec, -, rfl⟩ := List.mem_map.mp hr
    simp [expectedRow, standardColumns]
  · exact List.perm_insertionSort (rowLe 0 1) (stock_data.map expectedRow)
  · exact List.sorted_insertionSort (rowLe 0 1) (stock_data.map expectedRow)
  · intro r hr
    rw [show (⟨standardColumns,
        List.insertionSort (rowLe 0 1) (stock_data.map expectedRow)⟩ : DataFrame).rows =
      List.insertionSort (rowLe 0 1) (stock_data.map expectedRow) from rfl] at hr
    rw [List.mem_insertionSort] at hr
    obtain ⟨rec, hrec, rfl⟩ := List.mem_map.mp hr
    obtain ⟨s, t, hl, hp⟩ := dateParseable_spec (hdates rec hrec)
    refine ⟨t, ?_⟩
    unfold expectedRow
    simp [standardColumns, parsedDate_eq hl hp]

/-- A second raw record with a later date, listed first to exercise sorting. -/
def rawRecord1 : RawRecord :=
  [("date", .str "2025-01-06"), ("symbol", .str "MSFT"), ("open", .float 420),
   ("high", .float 425), ("low", .float 415), ("close", .float 422),
   ("volume", .int 2000000), ("adj_close", .float 422)]

theorem process_dataframe_spec_witness :
    ∃ df : DataFrame, process_dataframe [rawRecord1, rawRecord0] = .ok df ∧
      df.cols = standardColumns ∧
      (∀ r ∈ df.rows, r.length = 8) ∧
      df.rows.Perm ([rawRecord1, rawRecord0].map expectedRow) ∧
      List.Sorted (rowLe 0 1) df.rows ∧
      (∀ r ∈ df.rows, ∃ t : Int, r.getD 0 .null = .timestamp t) :=
  process_dataframe_spec [rawRecord1, rawRecord0] (by decide) (by decide) (by decide)
